import Mathlib

set_option maxRecDepth 40000

/-!
# Verification of the KUMO router label manager's device-communication core

Shallow embedding of the data model and the label download/upload operations
of the `kumo-router-label-manager` repository (Python sources under `src/`):

* `src/models/label.py` — the `Label` dataclass with its validation,
  `has_changes`, `apply_changes`, `to_dict` / `from_dict`;
* `src/agents/api_agent/router_protocols.py` — response parsers
  (`ResponseParser.parse_individual_port`, `TelnetCommand.parse_label_response`)
  and `DefaultLabelGenerator`;
* `src/agents/api_agent/rest_client.py` — `download_labels_individual`,
  `upload_labels_batch` and the per-port query loop `_query_input_label` /
  `_query_output_label`;
* `src/agents/api_agent/telnet_client.py` — `upload_labels_batch`;
* `src/agents/api_agent/__init__.py` — the `APIAgent` orchestrator:
  `download_labels` (fallback chain REST bulk → REST individual → Telnet →
  generated defaults) and `upload_labels`.

Network I/O is modelled by oracles: a per-endpoint HTTP response oracle for the
REST client, and outcome values for whole protocol attempts where the Python
code treats an attempt as an opaque success/failure (a raised exception is an
explicit `Except.error` / dedicated constructor).  Python string truthiness
(`if label:`) is modelled as an explicit non-emptiness test.
-/

namespace Kumo

/-! ## Data model: `src/models/label.py` -/

/-- The `PortType` enum from `src/models/label.py`. -/
inductive PortType where
  | INPUT
  | OUTPUT
deriving DecidableEq, Repr

/-- The string payload of the enum member, `PortType.value`: the value of the enum member. -/
def PortType.value : PortType → String
  | .INPUT => "INPUT"
  | .OUTPUT => "OUTPUT"

/-- Python enum lookup `PortType(port_type_str)` by value; raises
`ValueError` (modelled as `none`) for an unknown string. -/
def PortType.ofValue : String → Option PortType
  | "INPUT" => some PortType.INPUT
  | "OUTPUT" => some PortType.OUTPUT
  | _ => none

/-- The `Label` dataclass of `src/models/label.py` (field order and defaults
as in the source). -/
structure Label where
  port_number : Nat
  port_type : PortType
  current_label : String := ""
  new_label : Option String := none
deriving DecidableEq, Repr

/-- Port-number validation `Label.validate_port_number`: the port number must lie in `1..120`
(`ValueError` otherwise, modelled as `false`).  The `isinstance(int)` check is
static in the embedding. -/
def Label.validate_port_number (l : Label) : Bool :=
  decide (1 ≤ l.port_number) && decide (l.port_number ≤ 120)

/-- Label-text validation `Label.validate_label_text`: both label texts are capped at
`max_length = 255` characters — a single cap for every protocol (the source
comment reads "255 for Videohub, 50 for KUMO" but only 255 is enforced).
The `isinstance(str)` checks are static in the embedding. -/
def Label.validate_label_text (l : Label) : Bool :=
  decide (l.current_label.length ≤ 255) &&
    (match l.new_label with
      | none => true
      | some s => decide (s.length ≤ 255))

/-- Construction validation `Label.__post_init__`: all validations run at construction; `true` means
construction succeeds, `false` means a `TypeError`/`ValueError` is raised. -/
def Label.post_init_ok (l : Label) : Bool :=
  l.validate_port_number && l.validate_label_text

/-- Pending-change predicate `Label.has_changes`: `new_label is not None and new_label != current_label`. -/
def Label.has_changes (l : Label) : Bool :=
  match l.new_label with
  | none => false
  | some s => decide (s ≠ l.current_label)

/-- Change application `Label.apply_changes`: when a `new_label` is present it becomes the
`current_label` and `new_label` is cleared; otherwise no change. -/
def Label.apply_changes (l : Label) : Label :=
  match l.new_label with
  | some s => { l with current_label := s, new_label := none }
  | none => l

/-- The dictionary produced by `Label.to_dict` (all five keys are always
present in the source's dictionary). -/
structure LabelDict where
  port_number : Nat
  port_type : String
  current_label : String
  new_label : Option String
  has_changes : Bool
deriving DecidableEq, Repr

/-- Dictionary conversion `Label.to_dict`. -/
def Label.to_dict (l : Label) : LabelDict :=
  { port_number := l.port_number
    port_type := l.port_type.value
    current_label := l.current_label
    new_label := l.new_label
    has_changes := l.has_changes }

/-- Inverse conversion `Label.from_dict` applied to a dictionary of the shape `to_dict`
produces: parses `port_type` by enum value (`ValueError` on failure) and
reconstructs the `Label`, whose `__post_init__` validation may itself fail.
Failures are modelled as `Except.error`. -/
def Label.from_dict (d : LabelDict) : Except String Label :=
  match PortType.ofValue d.port_type with
  | none => .error "ValueError: invalid port_type"
  | some pt =>
    let l : Label :=
      { port_number := d.port_number
        port_type := pt
        current_label := d.current_label
        new_label := d.new_label }
    if l.post_init_ok then .ok l else .error "ValueError: validation failed"

/-! ## Response parsing: `src/agents/api_agent/router_protocols.py` -/

/-- A REST response body as seen by `ResponseParser.parse_individual_port`:
either a parsed JSON object (modelled as an association list of string-valued
fields, as in the responses this parser receives) or a raw text body. -/
inductive RestResponse where
  | dict (fields : List (String × String))
  | text (s : String)
deriving DecidableEq, Repr

/-- Python truthiness of the response value (`if success and response:`):
a dict is truthy when non-empty, a string when non-empty. -/
def RestResponse.truthy : RestResponse → Bool
  | .dict fields => decide (fields ≠ [])
  | .text s => decide (s ≠ "")

namespace ResponseParser

/-- Parser `ResponseParser.parse_individual_port`: a dict response yields its
`"label"` field when present (`str()` of it) and `None` otherwise; a string
response yields its stripped text when non-blank; anything else is `None`. -/
def parse_individual_port : RestResponse → Option String
  | .dict fields =>
    match fields.lookup "label" with
    | some v => some v
    | none => none
  | .text s => if s.trim = "" then none else some s.trim

end ResponseParser

namespace DefaultLabelGenerator

/-- Default input label, `DefaultLabelGenerator.generate_input_label`. -/
def generate_input_label (port : Nat) : String :=
  "Input " ++ toString port

/-- Default output label, `DefaultLabelGenerator.generate_output_label`. -/
def generate_output_label (port : Nat) : String :=
  "Output " ++ toString port

end DefaultLabelGenerator

namespace TelnetCommand

/-- Model of `re.search` of `LABEL_RESPONSE_PATTERN = re.compile(r'"([^"]+)"')`
over the response's characters: the leftmost position where a double quote is
followed by one-or-more non-quote characters and a closing double quote;
yields the captured group (the content between the quotes).  When the content
after a quote is empty or unterminated the engine advances to the next start
position, which the recursion mirrors. -/
def findQuoted : List Char → Option (List Char)
  | [] => none
  | c :: rest =>
    if c = '"' then
      match rest.dropWhile (fun d => decide (d ≠ '"')) with
      | [] => findQuoted rest
      | _ :: _ =>
        if rest.takeWhile (fun d => decide (d ≠ '"')) = [] then findQuoted rest
        else some (rest.takeWhile (fun d => decide (d ≠ '"')))
    else findQuoted rest

/-- Response parsing `TelnetCommand.parse_label_response`: `None` for an empty (falsy)
response, otherwise the first regex match of `"([^"]+)"`, else `None`. -/
def parse_label_response (response : String) : Option String :=
  if response = "" then none
  else (findQuoted response.data).map String.mk

/-- The claim's reading of "the first double-quoted substring of the
response": the content between the first `"` and the next `"` after it, when
both exist (possibly empty content). -/
def firstQuotedSpec (cs : List Char) : Option (List Char) :=
  match cs.dropWhile (fun d => decide (d ≠ '"')) with
  | [] => none
  | _ :: rest2 =>
    if (rest2.dropWhile (fun d => decide (d ≠ '"'))).isEmpty then none
    else some (rest2.takeWhile (fun d => decide (d ≠ '"')))

end TelnetCommand

/-- Predicate: `cs` decomposes as `a ++ '"' :: l ++ '"' :: b` with non-empty quote-free
content `l`: a non-empty double-quoted substring of `cs` with `a.length`
characters before its opening quote. -/
def QuotedAt (cs a l b : List Char) : Prop :=
  cs = a ++ '"' :: (l ++ '"' :: b) ∧ l ≠ [] ∧ '"' ∉ l

/-- Labels dictionary `{"inputs": [...], "outputs": [...]}` passed between
the protocol clients and the orchestrator. -/
structure LabelsDict where
  inputs : List String
  outputs : List String
deriving DecidableEq, Repr

namespace DefaultLabelGenerator

/-- Defaults `DefaultLabelGenerator.generate_default_labels`: `"Input 1".."Input 32"`
and `"Output 1".."Output 32"`. -/
def generate_default_labels : LabelsDict :=
  { inputs := (List.range 32).map (fun i => generate_input_label (i + 1))
    outputs := (List.range 32).map (fun i => generate_output_label (i + 1)) }

end DefaultLabelGenerator

/-- The REST protocol enum of `router_protocols.py` (the orchestrator's
protocol tags). -/
inductive Protocol where
  | REST_BULK
  | REST_INDIVIDUAL
  | TELNET
  | DEFAULT
deriving DecidableEq, Repr

namespace RestClient

/-- Per-port query `RestClient._query_input_label` / `_query_output_label`: walk the
endpoint list for the port; each element of the oracle list is the outcome of
`_make_request` for one endpoint (`none` = all retries failed).  A truthy
response is parsed; a truthy (non-empty) parsed label is returned, otherwise
the next endpoint is tried; `None` when every endpoint fails. -/
def query_label_loop : List (Option RestResponse) → Option String
  | [] => none
  | r :: rest =>
    match r with
    | none => query_label_loop rest
    | some resp =>
      if resp.truthy then
        match ResponseParser.parse_individual_port resp with
        | some l => if l = "" then query_label_loop rest else some l
        | none => query_label_loop rest
      else query_label_loop rest

/-- The per-port body of `download_labels_individual`'s loops: a truthy
queried label fills the slot, anything else falls back to the generated
default. -/
def port_slot (q : Nat → Option String) (deflt : Nat → String) (p : Nat) : String :=
  match q p with
  | some l => if l = "" then deflt p else l
  | none => deflt p

/-- One loop of `download_labels_individual` over a list of ports: builds the
label list in port order and counts the ports whose query produced a truthy
label. -/
def collect_ports (q : Nat → Option String) (deflt : Nat → String) :
    List Nat → List String × Nat
  | [] => ([], 0)
  | p :: ps =>
    let r := collect_ports q deflt ps
    match q p with
    | some l => if l = "" then (deflt p :: r.1, r.2) else (l :: r.1, r.2 + 1)
    | none => (deflt p :: r.1, r.2)

/-- Python `range(1, 33)`: the ports scanned by `download_labels_individual`. -/
def ports32 : List Nat := (List.range 32).map (· + 1)

/-- Individual download `RestClient.download_labels_individual`, parameterised by the
per-port per-endpoint response oracles `qin`/`qout`: query the 32 inputs and
32 outputs, fill failed slots with generated defaults, and return the labels
dictionary when at least one query succeeded (`success_count > 0`), else the
definitive-failure signal `None`. -/
def download_labels_individual (qin qout : Nat → List (Option RestResponse)) :
    Option LabelsDict :=
  if 0 < (collect_ports (fun p => query_label_loop (qin p))
        DefaultLabelGenerator.generate_input_label ports32).2 +
      (collect_ports (fun p => query_label_loop (qout p))
        DefaultLabelGenerator.generate_output_label ports32).2 then
    some ⟨(collect_ports (fun p => query_label_loop (qin p))
        DefaultLabelGenerator.generate_input_label ports32).1,
      (collect_ports (fun p => query_label_loop (qout p))
        DefaultLabelGenerator.generate_output_label ports32).1⟩
  else none

end RestClient

/-- The orchestrator's view of one `TelnetClient.download_labels` attempt:
either the `async with TelnetClient(...)` block raised (caught by the
orchestrator) or it completed with `(Protocol.TELNET, result)`. -/
inductive TelnetAttempt where
  | connectError
  | result (r : Option LabelsDict)
deriving DecidableEq, Repr

/-- An upload item of `upload_data`: `{"port": ..., "type": ..., "label": ...}`. -/
structure UploadItem where
  port : Nat
  type : String
  label : Option String
deriving DecidableEq, Repr

/-- The shared shape of `RestClient.upload_labels_batch` and
`TelnetClient.upload_labels_batch`: one `upload_label` call per item (its
outcome given by the oracle, indexed by the item's position), incrementing
exactly one of the two counters and recording the truthy error messages. -/
def upload_batch_loop (outcome : Nat → Bool × Option String) :
    Nat → List UploadItem → Nat × Nat × List String
  | _, [] => (0, 0, [])
  | idx, _ :: rest =>
    let r := upload_batch_loop outcome (idx + 1) rest
    match outcome idx with
    | (true, _) => (r.1 + 1, r.2.1, r.2.2)
    | (false, m) =>
      (r.1, r.2.1 + 1,
        match m with
        | some t => if t = "" then r.2.2 else t :: r.2.2
        | none => r.2.2)

namespace RestClient

/-- REST batch upload `RestClient.upload_labels_batch`. -/
def upload_labels_batch (outcome : Nat → Bool × Option String)
    (labels : List UploadItem) : Nat × Nat × List String :=
  upload_batch_loop outcome 0 labels

end RestClient

namespace TelnetClient

/-- Telnet batch upload `TelnetClient.upload_labels_batch` (same loop shape as the REST batch,
over serial Telnet `upload_label` calls). -/
def upload_labels_batch (outcome : Nat → Bool × Option String)
    (labels : List UploadItem) : Nat × Nat × List String :=
  upload_batch_loop outcome 0 labels

end TelnetClient

namespace APIAgent

/-- One port type of `APIAgent._dict_to_labels`: `enumerate(..., start=1)`
constructing a `Label` per text; a failing `Label.__post_init__` raises
(`Except.error`), aborting the conversion. -/
def build_labels (t : PortType) : Nat → List String → Except String (List Label)
  | _, [] => .ok []
  | n, s :: rest =>
    let l : Label := ⟨n, t, s, none⟩
    if l.post_init_ok then
      match build_labels t (n + 1) rest with
      | .ok ls => .ok (l :: ls)
      | .error e => .error e
    else .error "ValueError"

/-- Conversion `APIAgent._dict_to_labels`: inputs (ports 1..) then outputs (ports 1..)
in one flat list. -/
def dict_to_labels (d : LabelsDict) : Except String (List Label) :=
  match build_labels PortType.INPUT 1 d.inputs with
  | .error e => .error e
  | .ok ins =>
    match build_labels PortType.OUTPUT 1 d.outputs with
    | .error e => .error e
    | .ok outs => .ok (ins ++ outs)

/-- The fallback chain of `APIAgent.download_labels` up to the point where
`labels_dict` is settled: REST bulk, then REST individual, then Telnet; the
pair is `(protocol_used, labels_dict)` just before the defaults check
(a Telnet exception leaves `protocol_used` at `REST_INDIVIDUAL` and
`labels_dict` at `None`). -/
def download_chain (bulk : Option LabelsDict)
    (qin qout : Nat → List (Option RestResponse)) (telnet : TelnetAttempt) :
    Protocol × Option LabelsDict :=
  match bulk with
  | some d => (Protocol.REST_BULK, some d)
  | none =>
    match RestClient.download_labels_individual qin qout with
    | some d => (Protocol.REST_INDIVIDUAL, some d)
    | none =>
      match telnet with
      | .connectError => (Protocol.REST_INDIVIDUAL, none)
      | .result r => (Protocol.TELNET, r)

/-- The protocol stored in `self._last_protocol` by `download_labels`
(`Protocol.DEFAULT` when every method failed and defaults were generated). -/
def recorded_protocol (bulk : Option LabelsDict)
    (qin qout : Nat → List (Option RestResponse)) (telnet : TelnetAttempt) :
    Protocol :=
  match (download_chain bulk qin qout telnet).2 with
  | some _ => (download_chain bulk qin qout telnet).1
  | none => Protocol.DEFAULT

/-- Orchestrated download `APIAgent.download_labels`: run the fallback chain, substitute generated
defaults when everything failed, and convert to `Label` objects; a conversion
error is caught by the outer `except`, which returns the converted defaults
instead.  `Except.error` models an exception escaping to the caller. -/
def download_labels (bulk : Option LabelsDict)
    (qin qout : Nat → List (Option RestResponse)) (telnet : TelnetAttempt) :
    Except String (List Label) :=
  let d := (download_chain bulk qin qout telnet).2.getD
      DefaultLabelGenerator.generate_default_labels
  match dict_to_labels d with
  | .ok ls => .ok ls
  | .error _ =>
    match dict_to_labels DefaultLabelGenerator.generate_default_labels with
    | .ok ls => .ok ls
    | .error e => .error e

/-- The `upload_data` built by `APIAgent.upload_labels` from the labels that
`has_changes`. -/
def to_upload_data (labels : List Label) : List UploadItem :=
  (labels.filter (·.has_changes)).map
    (fun l => ⟨l.port_number, l.port_type.value, l.new_label⟩)

/-- Orchestrated upload `APIAgent.upload_labels`.  `lastProtocol` is `self._last_protocol`
(assigned by `download_labels`; this method never reads it).  Each protocol
attempt either raises before completing its batch (`Except.error`, caught by
the orchestrator) or completes with the per-item outcome oracle.  REST is
always tried first; its result is kept only when `success_count > 0`;
otherwise Telnet runs, and if Telnet raises too the failure triple is
assembled from the REST messages plus the two failure strings. -/
def upload_labels (lastProtocol : Option Protocol) (labels : List Label)
    (restAttempt : Except String (Nat → Bool × Option String))
    (telnetAttempt : Except String (Nat → Bool × Option String)) :
    Nat × Nat × List String :=
  let items := to_upload_data labels
  if items.isEmpty then (0, 0, [])
  else
    match restAttempt with
    | .ok oracle =>
      let r := RestClient.upload_labels_batch oracle items
      if 0 < r.1 then r
      else
        match telnetAttempt with
        | .ok oracle2 => TelnetClient.upload_labels_batch oracle2 items
        | .error te =>
          (r.1, items.length,
            r.2.2 ++ ["Telnet upload failed: " ++ te, "All upload methods failed"])
    | .error _ =>
      match telnetAttempt with
      | .ok oracle2 => TelnetClient.upload_labels_batch oracle2 items
      | .error te =>
        (0, items.length,
          ["Telnet upload failed: " ++ te, "All upload methods failed"])

end APIAgent

/-- The 64 labels produced from `generate_default_labels` by
`_dict_to_labels`: `"Input 1".."Input 32"` on input ports 1..32 followed by
`"Output 1".."Output 32"` on output ports 1..32. -/
def default_label_list : List Label :=
  (List.range 32).map
      (fun i => ⟨i + 1, PortType.INPUT, "Input " ++ toString (i + 1), none⟩) ++
    (List.range 32).map
      (fun i => ⟨i + 1, PortType.OUTPUT, "Output " ++ toString (i + 1), none⟩)

/-! ## Port-count detection

`RestClient.detect_port_count` is invoked from `src/cli.py`
(`show_status`) but its definition is not present under `src/`. -/

/-- Modelled from the spec: `RestClient.detect_port_count` is called in
`src/cli.py` but not defined under `src/`.  Per the spec, it tries reading the
source name for port 33 (→ 64 ports), else port 17 (→ 32 ports), else
defaults to 16; `probe n` tells whether the read of port `n`'s source name
succeeded. -/
def detect_port_count (probe : Nat → Bool) : Nat :=
  if probe 33 then 64
  else if probe 17 then 32
  else 16

end Kumo

open Kumo

/-! ## Helper lemmas -/

/-- Each pass of the shared batch-upload loop increments exactly one of the
two counters, so they sum to the number of items. -/
theorem upload_batch_loop_counts (outcome : Nat → Bool × Option String) :
    ∀ (items : List UploadItem) (idx : Nat),
      (upload_batch_loop outcome idx items).1 +
        (upload_batch_loop outcome idx items).2.1 = items.length := by
  intro items
  induction items with
  | nil => intro idx; rfl
  | cons x rest ih =>
    intro idx
    have h := ih (idx + 1)
    rcases houtcome : outcome idx with ⟨b, m⟩
    cases b <;> simp [upload_batch_loop, houtcome] <;> omega

/-- The upload items are one per changed label. -/
theorem to_upload_data_length (labels : List Label) :
    (APIAgent.to_upload_data labels).length =
      (labels.filter (·.has_changes)).length := by
  simp [APIAgent.to_upload_data]

/-- Converting the generated defaults always succeeds and yields the fixed
64-label list. -/
theorem dict_to_labels_defaults :
    APIAgent.dict_to_labels DefaultLabelGenerator.generate_default_labels =
      Except.ok default_label_list := by
  rfl

/-- The per-port query loop never yields the empty string: an empty parsed
label is falsy in Python and the loop moves on to the next endpoint. -/
theorem query_label_loop_ne_empty (rs : List (Option RestResponse)) :
    RestClient.query_label_loop rs ≠ some "" := by
  induction rs with
  | nil => simp [RestClient.query_label_loop]
  | cons r rest ih =>
    cases r with
    | none => simpa [RestClient.query_label_loop] using ih
    | some resp =>
      cases ht : resp.truthy with
      | false => simpa [RestClient.query_label_loop, ht] using ih
      | true =>
        cases hp : ResponseParser.parse_individual_port resp with
        | none => simpa [RestClient.query_label_loop, ht, hp] using ih
        | some l =>
          by_cases hl : l = ""
          · simpa [RestClient.query_label_loop, ht, hp, hl] using ih
          · simp [RestClient.query_label_loop, ht, hp, hl]

/-- The label list built by one `download_labels_individual` loop is the
per-port slot function mapped over the port list. -/
theorem collect_ports_fst (q : Nat → Option String) (deflt : Nat → String) :
    ∀ ps, (RestClient.collect_ports q deflt ps).1 =
      ps.map (RestClient.port_slot q deflt) := by
  intro ps
  induction ps with
  | nil => rfl
  | cons p rest ih =>
    cases hq : q p with
    | none => simp [RestClient.collect_ports, RestClient.port_slot, hq, ih]
    | some l =>
      by_cases hl : l = "" <;>
        simp [RestClient.collect_ports, RestClient.port_slot, hq, hl, ih]

/-- The success counter of one `download_labels_individual` loop is zero
exactly when no port produced a truthy label. -/
theorem collect_ports_snd_zero (q : Nat → Option String) (deflt : Nat → String) :
    ∀ ps, (RestClient.collect_ports q deflt ps).2 = 0 ↔
      ∀ p ∈ ps, q p = none ∨ q p = some "" := by
  intro ps
  induction ps with
  | nil => simp [RestClient.collect_ports]
  | cons p rest ih =>
    cases hq : q p with
    | none => simp [RestClient.collect_ports, hq, ih]
    | some l =>
      by_cases hl : l = ""
      · subst hl
        simp [RestClient.collect_ports, hq, ih]
      · simp only [RestClient.collect_ports, hq, if_neg hl]
        constructor
        · intro h
          exact absurd h (Nat.succ_ne_zero _)
        · intro h
          rcases h p (List.mem_cons_self p rest) with h1 | h1
          · rw [hq] at h1
            cases h1
          · rw [hq] at h1
            exact absurd (Option.some.inj h1) hl

/-- The first element surviving `dropWhile` falsifies the predicate. -/
theorem dropWhile_head_false {α : Type} (p : α → Bool) :
    ∀ {l : List α} {d : α} {rem : List α}, l.dropWhile p = d :: rem → p d = false := by
  intro l
  induction l with
  | nil =>
    intro d rem h
    cases h
  | cons x xs ih =>
    intro d rem h
    cases hx : p x with
    | true =>
      rw [List.dropWhile_cons, if_pos (by simp [hx])] at h
      exact ih h
    | false =>
      rw [List.dropWhile_cons, if_neg (by simp [hx])] at h
      injection h with h1 _
      rw [← h1]
      exact hx

/-- A non-empty double-quoted substring needs two quote characters. -/
theorem quotedAt_two_quotes {cs a l b : List Char} (h : QuotedAt cs a l b) :
    2 ≤ cs.count '"' := by
  rcases h with ⟨rfl, -, -⟩
  simp [List.count_append, List.count_cons_self]
  omega

/-- A string with fewer than two quotes has no non-empty double-quoted
substring. -/
theorem count_lt_no_decomp {cs : List Char} (h : cs.count '"' < 2) :
    ∀ a l b, ¬ QuotedAt cs a l b :=
  fun _ _ _ hq => absurd (quotedAt_two_quotes hq) (by omega)

/-- When `dropWhile` of the quote test consumes everything, the list is
quote-free. -/
theorem dropWhile_quote_nil_count {rest : List Char}
    (h : rest.dropWhile (fun d => decide (d ≠ '"')) = []) : rest.count '"' = 0 := by
  refine List.count_eq_zero.mpr (fun hmem => ?_)
  have hall := List.dropWhile_eq_nil_iff.mp h
  have := hall _ hmem
  simp at this

/-- Prefixing a character shifts a quoted decomposition by one. -/
theorem quotedAt_cons_intro {c : Char} {rest a l b : List Char}
    (h : QuotedAt rest a l b) : QuotedAt (c :: rest) (c :: a) l b := by
  rcases h with ⟨he, hne, hq⟩
  exact ⟨by rw [List.cons_append, he], hne, hq⟩

/-- A quoted decomposition of `c :: rest` either opens at position 0 (then
`c` is the quote) or is a decomposition of `rest` shifted by one. -/
theorem quotedAt_cons_elim {c : Char} {rest a l b : List Char}
    (h : QuotedAt (c :: rest) a l b) :
    (a = [] ∧ c = '"' ∧ rest = l ++ '"' :: b) ∨
      ∃ a₀, a = c :: a₀ ∧ QuotedAt rest a₀ l b := by
  rcases h with ⟨he, hne, hq⟩
  cases a with
  | nil =>
    rw [List.nil_append] at he
    injection he with hc hr
    exact Or.inl ⟨rfl, hc, hr⟩
  | cons x a₀ =>
    rw [List.cons_append] at he
    injection he with hc hr
    exact Or.inr ⟨a₀, by rw [hc], hr, hne, hq⟩

/-- A list starting with a quote admits no quoted decomposition with empty
prefix: the content would have to start with the quote itself. -/
theorem head_quote_no_decomp {rem l b : List Char}
    (h : '"' :: rem = l ++ '"' :: b) (hne : l ≠ []) (hq : '"' ∉ l) : False := by
  cases l with
  | nil => exact hne rfl
  | cons x l' =>
    rw [List.cons_append] at h
    injection h with h1 _
    subst h1
    exact hq (List.mem_cons_self _ _)

/-- The regex search fails exactly on the strings without a non-empty
double-quoted substring. -/
theorem findQuoted_none_iff :
    ∀ cs : List Char, TelnetCommand.findQuoted cs = none ↔
      ∀ a l b, ¬ QuotedAt cs a l b := by
  intro cs
  induction cs with
  | nil =>
    simp only [TelnetCommand.findQuoted, true_iff]
    exact count_lt_no_decomp (by simp)
  | cons c rest ih =>
    by_cases hc : c = '"'
    · subst hc
      cases hdrop : rest.dropWhile (fun d => decide (d ≠ '"')) with
      | nil =>
        have hc0 : rest.count '"' = 0 := dropWhile_quote_nil_count hdrop
        have hcs : ('"' :: rest).count '"' < 2 := by
          rw [List.count_cons_self, hc0]
          omega
        simp only [TelnetCommand.findQuoted, hdrop, ite_true, eq_self_iff_true]
        rw [ih]
        constructor
        · intro _
          exact count_lt_no_decomp hcs
        · intro _
          exact count_lt_no_decomp (by omega)
      | cons d rem' =>
        have hd : d = '"' := by
          have := dropWhile_head_false _ hdrop
          simpa using this
        subst hd
        by_cases htake : rest.takeWhile (fun d => decide (d ≠ '"')) = []
        · have hrest : rest = '"' :: rem' := by
            have h1 := List.takeWhile_append_dropWhile
              (p := fun d => decide (d ≠ '"')) (l := rest)
            rw [htake, hdrop, List.nil_append] at h1
            exact h1.symm
          simp only [TelnetCommand.findQuoted, hdrop, ite_true, eq_self_iff_true,
            if_pos htake]
          rw [ih]
          constructor
          · intro h a l b hq
            rcases quotedAt_cons_elim hq with ⟨-, -, hre⟩ | ⟨a₀, -, hq₀⟩
            · exact head_quote_no_decomp (hrest.symm.trans hre) hq.2.1 hq.2.2
            · exact h _ _ _ hq₀
          · intro h a l b hq
            exact h _ _ _ (quotedAt_cons_intro hq)
        · simp only [TelnetCommand.findQuoted, hdrop, ite_true, eq_self_iff_true,
            if_neg htake]
          constructor
          · intro h
            cases h
          · intro h
            exfalso
            have hrest : rest = rest.takeWhile (fun d => decide (d ≠ '"')) ++
                '"' :: rem' := by
              conv_lhs => rw [← List.takeWhile_append_dropWhile
                (p := fun d => decide (d ≠ '"')) (l := rest)]
              rw [hdrop]
            refine h [] (rest.takeWhile (fun d => decide (d ≠ '"'))) rem'
              ⟨?_, htake, ?_⟩
            · rw [List.nil_append]
              exact congrArg (List.cons '"') hrest
            · intro hmem
              have := List.mem_takeWhile_imp hmem
              simp at this
    · simp only [TelnetCommand.findQuoted, if_neg hc]
      rw [ih]
      constructor
      · intro h a l b hq
        rcases quotedAt_cons_elim hq with ⟨-, hcq, -⟩ | ⟨a₀, -, hq₀⟩
        · exact absurd hcq hc
        · exact h _ _ _ hq₀
      · intro h a l b hq
        exact h _ _ _ (quotedAt_cons_intro hq)

/-- A successful regex search returns the content of a non-empty
double-quoted substring whose opening quote is leftmost among all of them. -/
theorem findQuoted_some :
    ∀ cs l : List Char, TelnetCommand.findQuoted cs = some l →
      ∃ a b, QuotedAt cs a l b ∧
        ∀ a' l' b', QuotedAt cs a' l' b' → a.length ≤ a'.length := by
  intro cs
  induction cs with
  | nil =>
    intro l h
    cases h
  | cons c rest ih =>
    intro l h
    by_cases hc : c = '"'
    · subst hc
      cases hdrop : rest.dropWhile (fun d => decide (d ≠ '"')) with
      | nil =>
        simp only [TelnetCommand.findQuoted, if_pos rfl, hdrop] at h
        have hc0 : rest.count '"' = 0 := dropWhile_quote_nil_count hdrop
        have : TelnetCommand.findQuoted rest = none :=
          (findQuoted_none_iff rest).mpr (count_lt_no_decomp (by omega))
        rw [this] at h
        cases h
      | cons d rem' =>
        have hd : d = '"' := by
          have := dropWhile_head_false _ hdrop
          simpa using this
        subst hd
        have hrest : rest = rest.takeWhile (fun d => decide (d ≠ '"')) ++
            '"' :: rem' := by
          conv_lhs => rw [← List.takeWhile_append_dropWhile
            (p := fun d => decide (d ≠ '"')) (l := rest)]
          rw [hdrop]
        by_cases htake : rest.takeWhile (fun d => decide (d ≠ '"')) = []
        · simp only [TelnetCommand.findQuoted, hdrop, ite_true, eq_self_iff_true,
            if_pos htake] at h
          obtain ⟨a₀, b, hq₀, hmin⟩ := ih l h
          have hrq : rest = '"' :: rem' := by
            rw [htake, List.nil_append] at hrest
            exact hrest
          refine ⟨'"' :: a₀, b, quotedAt_cons_intro hq₀, ?_⟩
          intro a' l' b' hq'
          rcases quotedAt_cons_elim hq' with ⟨-, -, hre⟩ | ⟨a₁, ha', hq₁⟩
          · exact absurd (hrq.symm.trans hre)
              (fun hcontra => head_quote_no_decomp hcontra hq'.2.1 hq'.2.2)
          · rw [ha', List.length_cons, List.length_cons]
            exact Nat.succ_le_succ (hmin _ _ _ hq₁)
        · simp only [TelnetCommand.findQuoted, hdrop, ite_true, eq_self_iff_true,
            if_neg htake] at h
          have hl : l = rest.takeWhile (fun d => decide (d ≠ '"')) :=
            (Option.some.inj h).symm
          subst hl
          refine ⟨[], rem', ⟨?_, htake, ?_⟩, ?_⟩
          · rw [List.nil_append]
            exact congrArg (List.cons '"') hrest
          · intro hmem
            have := List.mem_takeWhile_imp hmem
            simp at this
          · intro a' l' b' _
            exact Nat.zero_le _
    · simp only [TelnetCommand.findQuoted, if_neg hc] at h
      obtain ⟨a₀, b, hq₀, hmin⟩ := ih l h
      refine ⟨c :: a₀, b, quotedAt_cons_intro hq₀, ?_⟩
      intro a' l' b' hq'
      rcases quotedAt_cons_elim hq' with ⟨-, hcq, -⟩ | ⟨a₁, ha', hq₁⟩
      · exact absurd hcq hc
      · rw [ha', List.length_cons, List.length_cons]
        exact Nat.succ_le_succ (hmin _ _ _ hq₁)

/-- The ports scanned by `download_labels_individual` are `1..32`. -/
theorem ports32_get :
    ∀ i : Fin 32, RestClient.ports32.get? i.val = some (i.val + 1) := by
  decide

/-! ## Claim theorems -/

/-- Claim C7 (spec-modelled): `detect_port_count` returns 64 when the probe for
port 33 succeeds, else 32 when the probe for port 17 succeeds, else 16. -/
theorem C7_detect_port_count (probe : Nat → Bool) :
    (probe 33 = true → detect_port_count probe = 64) ∧
    (probe 33 = false → probe 17 = true → detect_port_count probe = 32) ∧
    (probe 33 = false → probe 17 = false → detect_port_count probe = 16) := by
  refine ⟨fun h => ?_, fun h33 h17 => ?_, fun h33 h17 => ?_⟩ <;>
    simp [detect_port_count, *]

/-- Witness for claim C7: with a probe that succeeds only at port 17 the
detected count is 32. -/
theorem C7_detect_port_count_witness :
    ((fun n => decide (n = 17)) 33 = false) ∧
    ((fun n => decide (n = 17)) 17 = true) ∧
    detect_port_count (fun n => decide (n = 17)) = 32 :=
  ⟨by decide, by decide,
    (C7_detect_port_count (fun n => decide (n = 17))).2.1 (by decide) (by decide)⟩

/-- Claim C10: after `apply_changes`, `new_label` is `none` and `has_changes` is
`false`; `current_label` equals the prior `new_label` when present and is
unchanged otherwise; hence `apply_changes` is idempotent. -/
theorem C10_apply_changes (l : Label) :
    l.apply_changes.new_label = none ∧
    l.apply_changes.has_changes = false ∧
    (∀ s, l.new_label = some s → l.apply_changes.current_label = s) ∧
    (l.new_label = none → l.apply_changes.current_label = l.current_label) ∧
    l.apply_changes.apply_changes = l.apply_changes := by
  cases l with
  | mk n t cur new =>
    cases new <;>
      simp [Label.apply_changes, Label.has_changes]

/-- Witness for claim C10: concrete evaluation at a label with a pending
change. -/
theorem C10_apply_changes_witness :
    (Label.mk 3 PortType.INPUT "Cam A" (some "Cam B")).new_label = some "Cam B" ∧
    (Label.mk 3 PortType.INPUT "Cam A" (some "Cam B")).apply_changes.current_label = "Cam B" :=
  ⟨by decide,
    (C10_apply_changes (Label.mk 3 PortType.INPUT "Cam A" (some "Cam B"))).2.2.1
      "Cam B" rfl⟩

/-- Claim C9: for every `Label` passing construction validation, `from_dict`
of `to_dict` reconstructs the label exactly (all four fields). -/
theorem C9_to_dict_from_dict (l : Label) (h : l.post_init_ok = true) :
    Label.from_dict l.to_dict = Except.ok l := by
  cases l with
  | mk n t cur new =>
    cases t <;>
      simp [Label.from_dict, Label.to_dict, PortType.value, PortType.ofValue, h]

/-- Witness for claim C9: concrete round-trip. -/
theorem C9_to_dict_from_dict_witness :
    (Label.mk 7 PortType.OUTPUT "Monitor" (some "Mon 2")).post_init_ok = true ∧
    Label.from_dict (Label.mk 7 PortType.OUTPUT "Monitor" (some "Mon 2")).to_dict =
      Except.ok (Label.mk 7 PortType.OUTPUT "Monitor" (some "Mon 2")) :=
  ⟨by decide,
    C9_to_dict_from_dict (Label.mk 7 PortType.OUTPUT "Monitor" (some "Mon 2")) (by decide)⟩

/-- Claim C5, counterexample: the claim says a label text exceeding the
parameter-API cap of 50 characters is rejected at construction, but a
51-character label passes `validate_label_text` (and full `__post_init__`
validation): only the single 255-character cap is enforced. -/
theorem C5_counterexample :
    (String.mk (List.replicate 51 'a')).length = 51 ∧
    (Label.mk 1 PortType.INPUT (String.mk (List.replicate 51 'a')) none).validate_label_text
      = true ∧
    (Label.mk 1 PortType.INPUT (String.mk (List.replicate 51 'a')) none).post_init_ok
      = true := by
  refine ⟨by decide, by decide, by decide⟩

/-- Claim C5, amended: constructing a `Label` whose label text (current or new)
exceeds 255 characters is rejected with a validation error before any network
I/O; the cap is uniformly 255 for every protocol — the 50-character
parameter-API cap is not enforced. -/
theorem C5_validate_label_text (l : Label) :
    l.validate_label_text = true ↔
      (l.current_label.length ≤ 255 ∧ ∀ s, l.new_label = some s → s.length ≤ 255) := by
  cases l with
  | mk n t cur new =>
    cases new <;> simp [Label.validate_label_text]

/-- Witness for claim C5 (amended): a 256-character label is rejected, a
255-character one accepted. -/
theorem C5_validate_label_text_witness :
    (Label.mk 1 PortType.INPUT (String.mk (List.replicate 256 'a')) none).validate_label_text
      = false ∧
    (Label.mk 1 PortType.INPUT (String.mk (List.replicate 255 'a')) none).validate_label_text
      = true := by
  constructor
  · have h := C5_validate_label_text
      (Label.mk 1 PortType.INPUT (String.mk (List.replicate 256 'a')) none)
    by_contra hc
    simp only [Bool.not_eq_false] at hc
    exact absurd ((h.mp hc).1) (by decide)
  · exact (C5_validate_label_text
      (Label.mk 1 PortType.INPUT (String.mk (List.replicate 255 'a')) none)).mpr
      ⟨by decide, by simp⟩

/-- Claim C3, counterexample: the parameter-API individual-port parser does not
read `value_name` or `value` at all — `{"value_name":"Cam1","value":"1"}` and
`{"value":"7"}` both parse to absent, where the claim predicts `"Cam1"` and
`"7"` respectively. -/
theorem C3_counterexample :
    ResponseParser.parse_individual_port
        (RestResponse.dict [("value_name", "Cam1"), ("value", "1")]) = none ∧
    ResponseParser.parse_individual_port (RestResponse.dict [("value", "7")]) = none := by
  refine ⟨by decide, by decide⟩

/-- Claim C3, amended: the parser returns the `"label"` field of a dict response
when present, falls back to the stripped text of a non-blank string response,
and yields absent otherwise; in particular `{}` (and any dict without a
`"label"` field, such as `{"value_name":"Cam1","value":"1"}`) parses to
absent. -/
theorem C3_parse_individual_port :
    (∀ fields, ResponseParser.parse_individual_port (RestResponse.dict fields)
        = fields.lookup "label") ∧
    (∀ s, ResponseParser.parse_individual_port (RestResponse.text s)
        = if s.trim = "" then none else some s.trim) ∧
    ResponseParser.parse_individual_port (RestResponse.dict []) = none := by
  refine ⟨fun fields => ?_, fun s => rfl, rfl⟩
  simp only [ResponseParser.parse_individual_port]
  cases fields.lookup "label" <;> rfl

/-- Claim C4: for the REST batch upload, the Telnet batch upload and the
orchestrator's `upload_labels`, `success_count + error_count` equals the
number of labels submitted for upload (at the orchestrator level: the number
of labels left after filtering to those with changes). -/
theorem C4_upload_counts :
    (∀ (outcome : Nat → Bool × Option String) (items : List UploadItem),
      (RestClient.upload_labels_batch outcome items).1 +
        (RestClient.upload_labels_batch outcome items).2.1 = items.length) ∧
    (∀ (outcome : Nat → Bool × Option String) (items : List UploadItem),
      (TelnetClient.upload_labels_batch outcome items).1 +
        (TelnetClient.upload_labels_batch outcome items).2.1 = items.length) ∧
    (∀ (lastProtocol : Option Protocol) (labels : List Label)
        (restAttempt telnetAttempt : Except String (Nat → Bool × Option String)),
      (APIAgent.upload_labels lastProtocol labels restAttempt telnetAttempt).1 +
        (APIAgent.upload_labels lastProtocol labels restAttempt telnetAttempt).2.1 =
        (labels.filter (·.has_changes)).length) := by
  refine ⟨fun outcome items => upload_batch_loop_counts outcome items 0,
    fun outcome items => upload_batch_loop_counts outcome items 0,
    fun lastProtocol labels restAttempt telnetAttempt => ?_⟩
  rw [← to_upload_data_length]
  unfold APIAgent.upload_labels
  by_cases hempty : (APIAgent.to_upload_data labels).isEmpty
  · simp only [hempty, if_pos]
    simp [List.isEmpty_iff] at hempty
    simp [hempty]
  · simp only [hempty, Bool.false_eq_true, if_false]
    cases restAttempt with
    | error e =>
      cases telnetAttempt with
      | ok oracle2 => exact upload_batch_loop_counts oracle2 _ 0
      | error te => simp
    | ok oracle =>
      have hrest := upload_batch_loop_counts oracle (APIAgent.to_upload_data labels) 0
      by_cases hpos :
          0 < (RestClient.upload_labels_batch oracle (APIAgent.to_upload_data labels)).1
      · simp only [hpos, if_pos]
        exact hrest
      · simp only [hpos, if_false]
        cases telnetAttempt with
        | ok oracle2 => exact upload_batch_loop_counts oracle2 _ 0
        | error te =>
          simp only []
          have h0 :
              (RestClient.upload_labels_batch oracle (APIAgent.to_upload_data labels)).1
                = 0 := by omega
          simp [h0]

/-- Claim C2 (code bug): `APIAgent.upload_labels` never reads
`self._last_protocol` — its result is identical for every recorded protocol —
and even with `TELNET` recorded from the last successful download, a changed
label is dispatched to REST first (here REST succeeds and serves the upload,
so the returned counts are REST's). -/
theorem C2_last_protocol_ignored :
    (∀ (last₁ last₂ : Option Protocol) (labels : List Label)
        (restAttempt telnetAttempt : Except String (Nat → Bool × Option String)),
      APIAgent.upload_labels last₁ labels restAttempt telnetAttempt =
        APIAgent.upload_labels last₂ labels restAttempt telnetAttempt) ∧
    APIAgent.upload_labels (some Protocol.TELNET)
        [⟨1, PortType.INPUT, "Old", some "New"⟩]
        (Except.ok (fun _ => (true, none)))
        (Except.ok (fun _ => (false, some "telnet refused"))) = (1, 0, []) := by
  exact ⟨fun last₁ last₂ labels r t => rfl, rfl⟩

/-- Claim C1: the orchestrator operation `APIAgent.download_labels` never propagates an exception to its
caller (it always returns `Except.ok`), and when every protocol attempt
(REST bulk, REST individual, Telnet) fails to produce labels it returns
exactly the 64 generated defaults: inputs 1..32 labelled
`"Input 1".."Input 32"` followed by outputs 1..32 labelled
`"Output 1".."Output 32"`. -/
theorem C1_download_labels (bulk : Option LabelsDict)
    (qin qout : Nat → List (Option RestResponse)) (telnet : TelnetAttempt) :
    (∃ ls, APIAgent.download_labels bulk qin qout telnet = Except.ok ls) ∧
    (bulk = none →
      RestClient.download_labels_individual qin qout = none →
      telnet = TelnetAttempt.connectError ∨ telnet = TelnetAttempt.result none →
      APIAgent.download_labels bulk qin qout telnet = Except.ok default_label_list) ∧
    default_label_list.length = 64 ∧
    (∀ i : Fin 32,
      default_label_list.get? i.val =
        some ⟨i.val + 1, PortType.INPUT, "Input " ++ toString (i.val + 1), none⟩ ∧
      default_label_list.get? (32 + i.val) =
        some ⟨i.val + 1, PortType.OUTPUT, "Output " ++ toString (i.val + 1), none⟩) := by
  refine ⟨?_, ?_, by decide, by decide⟩
  · unfold APIAgent.download_labels
    cases h : APIAgent.dict_to_labels
        ((APIAgent.download_chain bulk qin qout telnet).2.getD
          DefaultLabelGenerator.generate_default_labels) with
    | ok ls => exact ⟨ls, by simp [h]⟩
    | error e =>
      exact ⟨default_label_list, by simp [h, dict_to_labels_defaults]⟩
  · intro hbulk hind htel
    have hchain : (APIAgent.download_chain bulk qin qout telnet).2 = none := by
      subst hbulk
      rcases htel with htel | htel <;>
        subst htel <;>
        simp [APIAgent.download_chain, hind]
    unfold APIAgent.download_labels
    rw [hchain]
    simp [dict_to_labels_defaults]

/-- Witness for claim C1: with bulk failed, empty endpoint lists for every port
(every individual fetch fails) and a Telnet connection error, the download
returns the 64 default labels. -/
theorem C1_download_labels_witness :
    RestClient.download_labels_individual (fun _ => []) (fun _ => []) = none ∧
    APIAgent.download_labels none (fun _ => []) (fun _ => [])
        TelnetAttempt.connectError = Except.ok default_label_list :=
  ⟨by decide,
    (C1_download_labels none (fun _ => []) (fun _ => [])
        TelnetAttempt.connectError).2.1 rfl (by decide) (Or.inl rfl)⟩

/-- Claim C6: the REST operation `download_labels_individual` returns the definitive-failure
signal (`none`) iff every single per-port fetch failed; when at least one
fetch succeeded it returns a populated 32+32 result whose failed slots hold
the generated defaults and whose successful slots hold the fetched labels,
and the orchestrator's chain then settles on this REST-individual result
without consulting Telnet (the chain's outcome is the same for every Telnet
attempt). -/
theorem C6_download_labels_individual (qin qout : Nat → List (Option RestResponse)) :
    (RestClient.download_labels_individual qin qout = none ↔
      ∀ p ∈ RestClient.ports32,
        RestClient.query_label_loop (qin p) = none ∧
        RestClient.query_label_loop (qout p) = none) ∧
    (∀ d, RestClient.download_labels_individual qin qout = some d →
      d.inputs.length = 32 ∧ d.outputs.length = 32 ∧
      ∀ i : Fin 32,
        (RestClient.query_label_loop (qin (i.val + 1)) = none →
          d.inputs.get? i.val =
            some (DefaultLabelGenerator.generate_input_label (i.val + 1))) ∧
        (∀ l, RestClient.query_label_loop (qin (i.val + 1)) = some l →
          d.inputs.get? i.val = some l) ∧
        (RestClient.query_label_loop (qout (i.val + 1)) = none →
          d.outputs.get? i.val =
            some (DefaultLabelGenerator.generate_output_label (i.val + 1))) ∧
        (∀ l, RestClient.query_label_loop (qout (i.val + 1)) = some l →
          d.outputs.get? i.val = some l)) ∧
    (∀ d (telnet : TelnetAttempt),
      RestClient.download_labels_individual qin qout = some d →
      APIAgent.download_chain none qin qout telnet =
        (Protocol.REST_INDIVIDUAL, some d)) := by
  have hzin := collect_ports_snd_zero (fun p => RestClient.query_label_loop (qin p))
    DefaultLabelGenerator.generate_input_label RestClient.ports32
  have hzout := collect_ports_snd_zero (fun p => RestClient.query_label_loop (qout p))
    DefaultLabelGenerator.generate_output_label RestClient.ports32
  refine ⟨?_, ?_, ?_⟩
  · unfold RestClient.download_labels_individual
    constructor
    · intro h p hp
      by_cases hpos : 0 <
          (RestClient.collect_ports (fun p => RestClient.query_label_loop (qin p))
              DefaultLabelGenerator.generate_input_label RestClient.ports32).2 +
            (RestClient.collect_ports (fun p => RestClient.query_label_loop (qout p))
              DefaultLabelGenerator.generate_output_label RestClient.ports32).2
      · rw [if_pos hpos] at h
        cases h
      · have hin0 : (RestClient.collect_ports
            (fun p => RestClient.query_label_loop (qin p))
            DefaultLabelGenerator.generate_input_label RestClient.ports32).2 = 0 := by
          omega
        have hout0 : (RestClient.collect_ports
            (fun p => RestClient.query_label_loop (qout p))
            DefaultLabelGenerator.generate_output_label RestClient.ports32).2 = 0 := by
          omega
        have h1 := (hzin.mp hin0) p hp
        have h2 := (hzout.mp hout0) p hp
        refine ⟨?_, ?_⟩
        · rcases h1 with h1 | h1
          · exact h1
          · exact absurd h1 (query_label_loop_ne_empty (qin p))
        · rcases h2 with h2 | h2
          · exact h2
          · exact absurd h2 (query_label_loop_ne_empty (qout p))
    · intro h
      have hin0 : (RestClient.collect_ports
          (fun p => RestClient.query_label_loop (qin p))
          DefaultLabelGenerator.generate_input_label RestClient.ports32).2 = 0 :=
        hzin.mpr (fun p hp => Or.inl ((h p hp).1))
      have hout0 : (RestClient.collect_ports
          (fun p => RestClient.query_label_loop (qout p))
          DefaultLabelGenerator.generate_output_label RestClient.ports32).2 = 0 :=
        hzout.mpr (fun p hp => Or.inl ((h p hp).2))
      rw [hin0, hout0]
      rfl
  · intro d hd
    unfold RestClient.download_labels_individual at hd
    by_cases hpos : 0 <
        (RestClient.collect_ports (fun p => RestClient.query_label_loop (qin p))
            DefaultLabelGenerator.generate_input_label RestClient.ports32).2 +
          (RestClient.collect_ports (fun p => RestClient.query_label_loop (qout p))
            DefaultLabelGenerator.generate_output_label RestClient.ports32).2
    · rw [if_pos hpos] at hd
      have hins : d.inputs = RestClient.ports32.map
          (RestClient.port_slot (fun p => RestClient.query_label_loop (qin p))
            DefaultLabelGenerator.generate_input_label) := by
        rw [← collect_ports_fst]
        rw [← Option.some.inj hd]
      have houts : d.outputs = RestClient.ports32.map
          (RestClient.port_slot (fun p => RestClient.query_label_loop (qout p))
            DefaultLabelGenerator.generate_output_label) := by
        rw [← collect_ports_fst]
        rw [← Option.some.inj hd]
      have hlen : RestClient.ports32.length = 32 := by decide
      refine ⟨by rw [hins]; simp [hlen], by rw [houts]; simp [hlen], ?_⟩
      intro i
      have hgin : d.inputs.get? i.val = some
          (RestClient.port_slot (fun p => RestClient.query_label_loop (qin p))
            DefaultLabelGenerator.generate_input_label (i.val + 1)) := by
        rw [hins, List.get?_map, ports32_get i]
        rfl
      have hgout : d.outputs.get? i.val = some
          (RestClient.port_slot (fun p => RestClient.query_label_loop (qout p))
            DefaultLabelGenerator.generate_output_label (i.val + 1)) := by
        rw [houts, List.get?_map, ports32_get i]
        rfl
      refine ⟨?_, ?_, ?_, ?_⟩
      · intro hnone
        rw [hgin]
        simp [RestClient.port_slot, hnone]
      · intro l hl
        have hne : l ≠ "" := by
          intro hcontra
          rw [hcontra] at hl
          exact query_label_loop_ne_empty (qin (i.val + 1)) hl
        rw [hgin]
        simp [RestClient.port_slot, hl, hne]
      · intro hnone
        rw [hgout]
        simp [RestClient.port_slot, hnone]
      · intro l hl
        have hne : l ≠ "" := by
          intro hcontra
          rw [hcontra] at hl
          exact query_label_loop_ne_empty (qout (i.val + 1)) hl
        rw [hgout]
        simp [RestClient.port_slot, hl, hne]
    · rw [if_neg hpos] at hd
      cases hd
  · intro d telnet hd
    simp [APIAgent.download_chain, hd]

/-- Witness for claim C6: one successful fetch (input port 1 answering
`{"label": "Cam 1"}`) yields a populated result — slot 1 holds `"Cam 1"`,
slot 2 the generated default — and the orchestrator chain keeps the
REST-individual result for any Telnet attempt. -/
theorem C6_download_labels_individual_witness :
    (RestClient.download_labels_individual
        (fun p => if p = 1 then [some (RestResponse.dict [("label", "Cam 1")])] else [])
        (fun _ => [])).map (fun d => (d.inputs.get? 0, d.inputs.get? 1)) =
      some (some "Cam 1", some "Input 2") := by
  cases hd : RestClient.download_labels_individual
      (fun p => if p = 1 then [some (RestResponse.dict [("label", "Cam 1")])] else [])
      (fun _ => []) with
  | none =>
    have hall := ((C6_download_labels_individual
        (fun p => if p = 1 then [some (RestResponse.dict [("label", "Cam 1")])] else [])
        (fun _ => [])).1.mp hd) 1 (by decide)
    revert hall
    decide
  | some d =>
    have hparts := (C6_download_labels_individual
        (fun p => if p = 1 then [some (RestResponse.dict [("label", "Cam 1")])] else [])
        (fun _ => [])).2.1 d hd
    have h1 := (hparts.2.2 ⟨0, by decide⟩).2.1 "Cam 1" (by decide)
    have h2 := (hparts.2.2 ⟨1, by decide⟩).1 (by decide)
    simp only [Option.map_some']
    rw [h1, h2]
    decide

/-- Claim C8, counterexample: the response `""` (two double-quote characters)
contains a double-quoted substring — the empty one between the two quotes, as
`firstQuotedSpec` computes — yet `parse_label_response` yields absent, where
the claim predicts the parse to be that first quoted substring. -/
theorem C8_counterexample :
    TelnetCommand.firstQuotedSpec ("\"\"".data) = some [] ∧
    TelnetCommand.parse_label_response "\"\"" = none := by
  exact ⟨rfl, rfl⟩

/-- Claim C8, amended: the parsed label is the content of the first (leftmost)
*non-empty* double-quoted substring of the response; if the response contains
no non-empty double-quoted substring — in particular when it has no quotes at
all, or is empty — the parse yields absent (a missing label, not an
error). -/
theorem C8_parse_label_response (s : String) :
    (TelnetCommand.parse_label_response s = none ↔
      ∀ a l b, ¬ QuotedAt s.data a l b) ∧
    (∀ t, TelnetCommand.parse_label_response s = some t →
      ∃ a b, QuotedAt s.data a t.data b ∧
        ∀ a' l' b', QuotedAt s.data a' l' b' → a.length ≤ a'.length) := by
  unfold TelnetCommand.parse_label_response
  by_cases hs : s = ""
  · subst hs
    constructor
    · simp only [ite_true, eq_self_iff_true, true_iff]
      exact count_lt_no_decomp (by simp [String.data])
    · intro t ht
      simp at ht
  · rw [if_neg hs]
    constructor
    · rw [Option.map_eq_none']
      exact findQuoted_none_iff s.data
    · intro t ht
      rcases Option.map_eq_some'.mp ht with ⟨l, hl, hmk⟩
      obtain ⟨a, b, hq, hmin⟩ := findQuoted_some s.data l hl
      refine ⟨a, b, ?_, hmin⟩
      rw [← hmk]
      exact hq

/-- Witness for claim C8 (amended): `"ACK \"Cam 1\" OK"` parses to `"Cam 1"`,
which is indeed the content of a leftmost non-empty double-quoted
substring. -/
theorem C8_parse_label_response_witness :
    TelnetCommand.parse_label_response "ACK \"Cam 1\" OK" = some "Cam 1" ∧
    (∃ a b, QuotedAt ("ACK \"Cam 1\" OK".data) a ("Cam 1".data) b ∧
      ∀ a' l' b', QuotedAt ("ACK \"Cam 1\" OK".data) a' l' b' →
        a.length ≤ a'.length) :=
  ⟨rfl, (C8_parse_label_response "ACK \"Cam 1\" OK").2 "Cam 1" rfl⟩
